import Mathlib

/-!
The merging pipeline of `combine_grids`.

A shallow embedding of `src/combine_grids/merging_pipeline.cpp`
(`MergingPipeline::estimateTransforms`, `isIdentity`,
`MergingPipeline::composeGrids`, `MergingPipeline::getTransforms`).

Conventions of the embedding.

* `float` / `double` values are elements of an ordered field `α` (the rationals
  for evaluation, the reals where a square root is taken): arithmetic is exact.
* `int` is `Int` restricted to `[-2^31, 2^31)`; signed addition wraps
  (two's complement), `uint32` is `Nat` below `2^32` with arithmetic `% 2^32`.
* A result `none` of a function that returns `Option` on the outside stands for
  undefined behaviour or a fatal assertion (out-of-range access, null
  dereference, conversion of an unrepresentable value).
* The delegated steps (feature pipeline, warper, compositor, pose lookup) are
  parameters.
-/

namespace combine_grids

/-! ## Data model -/

/-- Element depth of a `cv::Mat`. -/
inductive Depth where
  | CV_8U
  | CV_32F
  | CV_64F
  deriving DecidableEq, Repr

/-- A `cv::Mat` with one channel: its size, its depth and its elements. -/
structure Mat (α : Type) where
  rows : Nat
  cols : Nat
  depth : Depth
  elem : Nat → Nat → α

/-- The default-constructed `cv::Mat()`: no rows, no columns. -/
def Mat.new {α : Type} [Zero α] : Mat α :=
  ⟨0, 0, Depth.CV_8U, fun _ _ => 0⟩

/-- The test `cv::Mat::empty()`. -/
def Mat.empty {α : Type} (m : Mat α) : Bool :=
  m.rows == 0 || m.cols == 0

/-- The matrix `cv::Mat::eye(rows, cols, type)`. -/
def Mat.eye {α : Type} [Zero α] [One α] (rows cols : Nat) (d : Depth) : Mat α :=
  ⟨rows, cols, d, fun i j => if i = j then 1 else 0⟩

/-- The call `src.convertTo(dst, CV_64F)`: every element value is kept (each
source depth embeds exactly in `double`); an empty source releases `dst`. -/
def Mat.convertTo64F {α : Type} [Zero α] (m : Mat α) : Mat α :=
  if m.empty then Mat.new else ⟨m.rows, m.cols, Depth.CV_64F, m.elem⟩

/-- The checked element access `m.at<double>(i, j)`: defined for a `CV_64F`
matrix and an in-range position. -/
def Mat.atDouble {α : Type} (m : Mat α) (i j : Nat) : Option α :=
  if m.depth = Depth.CV_64F ∧ i < m.rows ∧ j < m.cols then some (m.elem i j) else none

/-- A point `geometry_msgs::Point`, restricted to the plane. -/
structure Point (α : Type) where
  x : α
  y : α

/-- The pose `geometry_msgs::Pose`, its position only. -/
structure Pose (α : Type) where
  position : Point α

/-- The header `nav_msgs::MapMetaData`. -/
structure MapMetaData (α : Type) where
  resolution : α
  width : Nat
  height : Nat
  origin : Pose α

/-- The message `nav_msgs::OccupancyGrid`. -/
structure OccupancyGrid (α : Type) where
  info : MapMetaData α
  data : List Int

/-- The rectangle `cv::Rect`. -/
structure Rect where
  x : Int
  y : Int
  width : Int
  height : Int
  deriving DecidableEq, Repr

/-- The fields of `MergingPipeline`; a null `grids_[i]` is `none`. -/
structure Pipeline (α : Type) where
  images_ : List (Mat α)
  grids_ : List (Option (OccupancyGrid α))
  transforms_ : List (Mat α)

/-! ## estimateTransforms -/

/-- Outcome of the delegated stitching steps of one `estimateTransforms` call:
the result of `leaveBiggestComponent`, whether the estimator and the bundle
adjuster succeeded, and the camera matrices `R` after bundle adjustment. -/
structure Stitching (α : Type) where
  good_indices : List Int
  estimator_ok : Bool
  adjuster_ok : Bool
  transforms : List (Mat α)

/-- Lines 105-111: scan the images from index `i` on; the first non-empty image
gets the identity transform and the scan stops. -/
def setReference {α : Type} [Zero α] [One α] :
    List (Mat α) → Nat → List (Mat α) → List (Mat α)
  | [], _, ts => ts
  | img :: rest, i, ts =>
    if !img.empty then ts.set i (Mat.eye 3 3 Depth.CV_64F)
    else setReference rest (i + 1) ts

/-- Lines 136-144: the `i`-th refined matrix is converted to double precision
into slot `j` for the `i`-th good index `j`. -/
def scatter {α : Type} [Zero α] :
    List Int → Nat → List (Mat α) → List (Mat α) → Option (List (Mat α))
  | [], _, _, out => some out
  | j :: js, i, ts, out =>
    match ts[i]? with
    | none => none
    | some r =>
      if 0 ≤ j ∧ j.toNat < out.length then
        scatter js (i + 1) ts (out.set j.toNat r.convertTo64F)
      else none

/-- The method `MergingPipeline::estimateTransforms`: the returned flag and the
pipeline after the call. -/
def estimateTransforms {α : Type} [Zero α] [One α] (s : Stitching α) (p : Pipeline α) :
    Option (Bool × Pipeline α) :=
  if p.images_.isEmpty then some (true, p)
  else if s.good_indices.length = 1 then
    some (true, { p with
      transforms_ := setReference p.images_ 0 (List.replicate p.images_.length Mat.new) })
  else if !s.estimator_ok then some (false, p)
  else if !s.adjuster_ok then some (false, p)
  else
    match scatter s.good_indices 0 s.transforms (List.replicate p.images_.length Mat.new) with
    | none => none
    | some ts => some (true, { p with transforms_ := ts })

/-! ## composeGrids -/

/-- The function `isIdentity`: a non-empty matrix none of whose elements
differs from the element of `Mat::eye` of the same size and type. -/
def isIdentity {α : Type} [Zero α] [One α] [DecidableEq α] (matrix : Mat α) : Bool :=
  if matrix.empty then false
  else
    (List.range matrix.rows).all fun i =>
      (List.range matrix.cols).all fun j =>
        decide (matrix.elem i j
          = (Mat.eye matrix.rows matrix.cols matrix.depth : Mat α).elem i j)

/-- The collaborators of `composeGrids`: `GridWarper::warp` (the warped image
and its bounding rectangle), `GridCompositor::compose`, and the pose of robot
`i` in the map frame as `tf::TransformListener::transformPose` gives it, `none`
when it throws a `tf::TransformException`. -/
structure Collaborators (α : Type) where
  warp : Mat α → Mat α → Mat α × Rect
  compose : List (Mat α) → List Rect → OccupancyGrid α
  transformPose : Nat → Option (Point α)

/-- Lines 178-185: warp every image that is non-empty and has a transform;
the warped images and rectangles are appended in index order. -/
def warpAll {α : Type} (warp : Mat α → Mat α → Mat α × Rect) :
    List (Mat α) → List (Mat α) → List (Mat α × Rect)
  | img :: imgs, t :: ts =>
    if !t.empty && !img.empty then warp img t :: warpAll warp imgs ts
    else warpAll warp imgs ts
  | _, _ => []

/-- Lines 201-210, from the current index on: the pair of
`result->info.resolution` and `any_resolution` when the loop is left. -/
def scanResolution {α : Type} [Zero α] [One α] [DecidableEq α] :
    List (Mat α) → List (Option (OccupancyGrid α)) → α → α → Option (α × α)
  | [], _, res, any => some (res, any)
  | _ :: _, [], _, _ => none
  | t :: ts, g :: gs, res, any =>
    if isIdentity t then
      match g with
      | none => none
      | some grid => some (grid.info.resolution, any)
    else
      match g with
      | some grid => scanResolution ts gs res grid.info.resolution
      | none => scanResolution ts gs res any

/-- Lines 200-213: the resolution of the output grid. -/
def setResolution {α : Type} [LinearOrderedField α]
    (transforms : List (Mat α)) (grids : List (Option (OccupancyGrid α)))
    (result : OccupancyGrid α) : Option (OccupancyGrid α) :=
  match scanResolution transforms grids result.info.resolution 0 with
  | none => none
  | some (res, any) =>
    some { result with info := { result.info with
      resolution := if res ≤ 0 then any else res } }

/-- Lines 218-224: the origin of the output grid. -/
def setOrigin {α : Type} [LinearOrderedField α]
    (transforms : List (Mat α)) (grids : List (Option (OccupancyGrid α)))
    (rois : List Rect) (result : OccupancyGrid α) : Option (OccupancyGrid α) :=
  if transforms.isEmpty then some result
  else
    match transforms[0]?, rois[0]?, grids[0]? with
    | some t0, some r0, some (some g0) =>
      match t0.atDouble 0 2, t0.atDouble 1 2 with
      | some tx, some ty =>
        let x : α := -tx - (r0.x : α)
        let y : α := -ty - (r0.y : α)
        some { result with info := { result.info with
          origin := ⟨⟨x * g0.info.resolution, y * g0.info.resolution⟩⟩ } }
      | _, _ => none
    | _, _, _ => none

/-- Signed 32-bit wrap-around of an integer. -/
def wrapInt32 (v : Int) : Int :=
  (v + 2 ^ 31) % 2 ^ 32 - 2 ^ 31

/-- Conversion of an `int` to `uint32_t`: the value modulo `2^32`. -/
def toUInt32 (v : Int) : Nat :=
  (v % 2 ^ 32).toNat

/-- The conversion `int(q)` of a `double`: truncation toward zero, defined when
the truncated value is representable. -/
def toInt {α : Type} [LinearOrderedField α] [FloorRing α] (q : α) : Option Int :=
  let t : Int := if 0 ≤ q then ⌊q⌋ else ⌈q⌉
  if -2 ^ 31 ≤ t ∧ t < 2 ^ 31 then some t else none

/-- The values of the loop variable of `for(int x=-3; x<3; x++)`. -/
def window : List Int :=
  [-3, -2, -1, 0, 1, 2]

/-- The condition of lines 253-254: `int` against `uint32_t` compares
unsigned, `int` against `0` compares signed. -/
def maskGuard (width height : Nat) (px py x y : Int) : Bool :=
  decide (toUInt32 (wrapInt32 (py + y)) < height)
    && decide (toUInt32 (wrapInt32 (px + x)) < width)
    && decide (wrapInt32 (py + y) > 0)
    && decide (wrapInt32 (px + x) > 0)

/-- The index expression of line 256, computed in `uint32_t`. -/
def maskIndex (width : Nat) (px py x y : Int) : Nat :=
  (toUInt32 (wrapInt32 (py + y)) * width + toUInt32 (wrapInt32 (px + x))) % 2 ^ 32

/-- Lines 253-257: one iteration of the inner loop. -/
def maskCell (width height : Nat) (px py x y : Int) (data : List Int) :
    Option (List Int) :=
  if maskGuard width height px py x y then
    if maskIndex width px py x y < data.length then
      some (data.set (maskIndex width px py x y) 0)
    else none
  else some data

/-- Lines 249-259: the two nested loops around pixel `(px, py)`. -/
def maskRobot (width height : Nat) (px py : Int) (data : List Int) :
    Option (List Int) :=
  window.foldlM (fun d x => window.foldlM (fun d y => maskCell width height px py x y d) d)
    data

/-- Lines 232-259: the body of the loop over the robots, for robot `i`. When
`transformPose` throws, the exception is logged and `robotPosMap` keeps its
default position. -/
def maskStep {α : Type} [LinearOrderedField α] [FloorRing α]
    (transformPose : Nat → Option (Point α)) (i : Nat) (result : OccupancyGrid α) :
    Option (OccupancyGrid α) :=
  let robotPosMap : Point α :=
    match transformPose i with
    | some pos => pos
    | none => ⟨0, 0⟩
  if result.info.resolution = 0 then none
  else
    match toInt ((robotPosMap.x - result.info.origin.position.x) / result.info.resolution),
        toInt ((robotPosMap.y - result.info.origin.position.y) / result.info.resolution) with
    | some robotPixelPosX, some robotPixelPosY =>
      match maskRobot result.info.width result.info.height robotPixelPosX robotPixelPosY
          result.data with
      | some d => some { result with data := d }
      | none => none
    | _, _ => none

/-- Lines 230-260: the loop `for(int i=0; i<3; i++)`. -/
def maskRobots {α : Type} [LinearOrderedField α] [FloorRing α]
    (transformPose : Nat → Option (Point α)) (result : OccupancyGrid α) :
    Option (OccupancyGrid α) :=
  [0, 1, 2].foldlM (fun r i => maskStep transformPose i r) result

/-- Line 195: the grid the compositor returns for the warped images and
rectangles of the pipeline. -/
def composed {α : Type} (env : Collaborators α) (p : Pipeline α) : OccupancyGrid α :=
  env.compose ((warpAll env.warp p.images_ p.transforms_).map Prod.fst)
    ((warpAll env.warp p.images_ p.transforms_).map Prod.snd)

/-- The method `MergingPipeline::composeGrids`; the inner `none` is the
returned `nullptr`. -/
def composeGrids {α : Type} [LinearOrderedField α] [FloorRing α]
    (env : Collaborators α) (p : Pipeline α) : Option (Option (OccupancyGrid α)) :=
  if p.images_.length ≠ p.transforms_.length ∨ p.images_.length ≠ p.grids_.length then none
  else if p.images_.isEmpty then some none
  else
    let warped := warpAll env.warp p.images_ p.transforms_
    if warped.isEmpty then some none
    else
      match setResolution p.transforms_ p.grids_ (composed env p) with
      | none => none
      | some r1 =>
        match setOrigin p.transforms_ p.grids_ (warped.map Prod.snd) r1 with
        | none => none
        | some r2 =>
          match maskRobots env.transformPose r2 with
          | none => none
          | some r3 => some (some r3)

/-! ## getTransforms -/

/-- The message `geometry_msgs::Vector3`. -/
structure Vector3 (α : Type) where
  x : α
  y : α
  z : α

/-- The message `geometry_msgs::Quaternion`. -/
structure Quaternion (α : Type) where
  x : α
  y : α
  z : α
  w : α

/-- The message `geometry_msgs::Transform`. -/
structure Transform (α : Type) where
  translation : Vector3 α
  rotation : Quaternion α

/-- The function `std::copysign(x, y)`: the magnitude of `x` with the sign of
`y`; a zero `y` counts as positive. -/
def copysign {α : Type} [LinearOrderedField α] (x y : α) : α :=
  if y < 0 then -|x| else |x|

/-- Lines 325-344: the body of the loop of `getTransforms` for one transform;
`sqrt` is `std::sqrt`. -/
def toRosTransform {α : Type} [LinearOrderedField α] (sqrt : α → α) (transform : Mat α) :
    Option (Transform α) :=
  if transform.empty then some ⟨⟨0, 0, 0⟩, ⟨0, 0, 0, 0⟩⟩
  else if transform.depth ≠ Depth.CV_64F then none
  else
    match transform.atDouble 0 2, transform.atDouble 1 2,
        transform.atDouble 0 0, transform.atDouble 1 0 with
    | some tx, some ty, some a, some b =>
      some ⟨⟨tx, ty, 0⟩,
        ⟨0, 0, copysign (sqrt (2 - 2 * a) * (1 / 2)) b, sqrt (2 + 2 * a) * (1 / 2)⟩⟩
    | _, _, _, _ => none

/-- Lines 324-345: the loop of `getTransforms` over the stored transforms. -/
def getTransformsLoop {α : Type} [LinearOrderedField α] (sqrt : α → α) :
    List (Mat α) → Option (List (Transform α))
  | [] => some []
  | transform :: rest =>
    match toRosTransform sqrt transform with
    | none => none
    | some ros_transform =>
      match getTransformsLoop sqrt rest with
      | none => none
      | some result => some (ros_transform :: result)

/-- The method `MergingPipeline::getTransforms`. -/
def getTransforms {α : Type} [LinearOrderedField α] (sqrt : α → α) (p : Pipeline α) :
    Option (List (Transform α)) :=
  getTransformsLoop sqrt p.transforms_

/-- A quarter turn with translation `(5, 7)` over the reals, preceded by an
unknown transform. -/
def exPipelineQuarterTurn : Pipeline ℝ :=
  ⟨[], [], [Mat.new, ⟨3, 3, Depth.CV_64F, fun i j =>
    match i, j with
    | 0, 1 => -1
    | 0, 2 => 5
    | 1, 0 => 1
    | 1, 2 => 7
    | 2, 2 => 1
    | _, _ => 0⟩]⟩

/-! ## Example inputs -/

/-- A `rows × cols` image, every pixel 0. -/
def exImage (rows cols : Nat) : Mat ℚ :=
  ⟨rows, cols, Depth.CV_8U, fun _ _ => 0⟩

/-- A `CV_64F` similarity transform with rotation entries `a`, `b` and
translation `(tx, ty)`. -/
def exTransform (a b tx ty : ℚ) : Mat ℚ :=
  ⟨3, 3, Depth.CV_64F, fun i j =>
    match i, j with
    | 0, 0 => a
    | 0, 1 => -b
    | 0, 2 => tx
    | 1, 0 => b
    | 1, 1 => a
    | 1, 2 => ty
    | 2, 2 => 1
    | _, _ => 0⟩

/-- An input grid of the given resolution and size, every cell 100. -/
def exGrid (resolution : ℚ) (width height : Nat) : OccupancyGrid ℚ :=
  ⟨⟨resolution, width, height, ⟨⟨0, 0⟩⟩⟩, List.replicate (width * height) 100⟩

/-- Collaborators for the examples: the warper returns the image unchanged with
a bounding rectangle whose top-left corner is `(2 + cols, 3 + rows)`, that is
`(4, 5)` for a 2 x 2 image; the compositor
returns a fresh `width × height` grid of resolution 0 at origin `(0, 0)`, every
cell 100; the pose lookup is `tp`. -/
def exEnv (width height : Nat) (tp : Nat → Option (Point ℚ)) : Collaborators ℚ :=
  ⟨fun img _ => (img, ⟨2 + img.cols, 3 + img.rows, img.cols, img.rows⟩),
    fun _ _ => ⟨⟨0, width, height, ⟨⟨0, 0⟩⟩⟩, List.replicate (width * height) 100⟩,
    tp⟩

/-- Two non-empty images; transform 0 is a known quarter turn, transform 1 is
unknown; grid 0 has resolution 1/20, grid 1 has resolution 1/10. -/
def exPipelineLastGrid : Pipeline ℚ :=
  ⟨[exImage 2 2, exImage 2 2],
    [some (exGrid (1 / 20) 2 2), some (exGrid (1 / 10) 2 2)],
    [exTransform 0 1 0 0, Mat.new]⟩

/-- Two non-empty images; transform 0 is the identity, transform 1 is a known
quarter turn; grid 0 has resolution 1/20, grid 1 has resolution 1/10. -/
def exPipelineIdentity : Pipeline ℚ :=
  ⟨[exImage 2 2, exImage 2 2],
    [some (exGrid (1 / 20) 2 2), some (exGrid (1 / 10) 2 2)],
    [Mat.eye 3 3 Depth.CV_64F, exTransform 0 1 4 6]⟩

/-- Image 0 is empty and image 1 is not; both transforms are known quarter
turns, transform 0 with translation `(5, 7)`; grid 0 has resolution 1/20, grid 1
has resolution 1/10. -/
def exPipelineOrigin : Pipeline ℚ :=
  ⟨[Mat.new, exImage 2 2],
    [some (exGrid (1 / 20) 2 2), some (exGrid (1 / 10) 2 2)],
    [exTransform 0 1 5 7, exTransform 0 1 0 0]⟩

/-- Two non-empty images with both grids present; transform 0 is unknown and
transform 1 is a known quarter turn. -/
def exPipelineFirstUnknown : Pipeline ℚ :=
  ⟨[exImage 2 2, exImage 2 2],
    [some (exGrid (1 / 20) 2 2), some (exGrid (1 / 10) 2 2)],
    [Mat.new, exTransform 0 1 0 0]⟩

/-- No image and no grid, with two transforms left from an earlier call. -/
def exPipelineStale : Pipeline ℚ :=
  ⟨[], [], [Mat.eye 3 3 Depth.CV_64F, Mat.new]⟩

/-- An empty image followed by a non-empty one, with three transforms left from
an earlier call. -/
def exPipelineTwoImages : Pipeline ℚ :=
  ⟨[Mat.new, exImage 2 2], [none, some (exGrid (1 / 20) 2 2)],
    [exTransform 0 1 5 7, Mat.new, Mat.new]⟩

/-- Pruning left the single index 0. -/
def exStitchingSingle : Stitching ℚ :=
  ⟨[0], true, true, []⟩

/-- Pruning left the indices 1 and 0, in this order, with two refined
single-precision matrices. -/
def exStitchingPair : Stitching ℚ :=
  ⟨[1, 0], true, true,
    [⟨3, 3, Depth.CV_32F, (exTransform 0 1 5 7).elem⟩,
      ⟨3, 3, Depth.CV_32F, (exTransform 1 0 0 0).elem⟩]⟩

/-! ## Properties of estimateTransforms -/

theorem Mat.new_empty {α : Type} [Zero α] : (Mat.new : Mat α).empty = true :=
  rfl

theorem setReference_of_all_empty {α : Type} [Zero α] [One α] (imgs : List (Mat α)) (i : Nat)
    (ts : List (Mat α)) (h : ∀ img ∈ imgs, img.empty = true) :
    setReference imgs i ts = ts := by
  induction imgs generalizing i with
  | nil => rfl
  | cons img rest ih =>
    have h0 : img.empty = true := h img (List.mem_cons_self _ _)
    simp only [setReference, h0, Bool.not_true, Bool.false_eq_true, if_false]
    exact ih (i + 1) (fun m hm => h m (List.mem_cons_of_mem _ hm))

theorem setReference_of_first {α : Type} [Zero α] [One α] (imgs : List (Mat α)) (i : Nat)
    (ts : List (Mat α)) (k : Nat) (hk : k < imgs.length) (hne : (imgs[k]).empty = false)
    (hfirst : ∀ j (hj : j < k), (imgs[j]).empty = true) :
    setReference imgs i ts = ts.set (i + k) (Mat.eye 3 3 Depth.CV_64F) := by
  induction imgs generalizing i k with
  | nil => simp at hk
  | cons img rest ih =>
    cases k with
    | zero =>
      have h0 : img.empty = false := by simpa using hne
      simp [setReference, h0]
    | succ k =>
      have h0 : img.empty = true := by simpa using hfirst 0 (Nat.succ_pos k)
      have hk2 : k < rest.length := by simpa using hk
      have hne2 : (rest[k]).empty = false := by simpa using hne
      have hf2 : ∀ j (hj : j < k), (rest[j]).empty = true := by
        intro j hj
        have := hfirst (j + 1) (Nat.succ_lt_succ hj)
        simpa using this
      simp only [setReference, h0, Bool.not_true, Bool.false_eq_true, if_false]
      rw [ih (i + 1) k hk2 hne2 hf2]
      congr 1
      omega

theorem setReference_length {α : Type} [Zero α] [One α] (imgs : List (Mat α)) (i : Nat)
    (ts : List (Mat α)) : (setReference imgs i ts).length = ts.length := by
  induction imgs generalizing i with
  | nil => rfl
  | cons img rest ih =>
    unfold setReference
    split
    · simp
    · exact ih (i + 1)

theorem estimateTransforms_degenerate {α : Type} [Zero α] [One α]
    (s : Stitching α) (p : Pipeline α)
    (hne : p.images_.isEmpty = false) (h1 : s.good_indices.length = 1) :
    estimateTransforms s p = some (true, ⟨p.images_, p.grids_,
      setReference p.images_ 0 (List.replicate p.images_.length Mat.new)⟩) := by
  unfold estimateTransforms
  rw [if_neg (by simp [hne]), if_pos h1]

/-- C1. With at least one image and exactly one index left by component
pruning, `estimateTransforms` returns true and stores exactly as many slots as
there are images: the slot of the lowest-indexed non-empty image is the 3x3
identity and every other slot is the empty matrix; when every image is empty
all slots are empty. Any other pruning outcome of size one and any other
stored transforms, over the same images, give the same slots. -/
theorem estimateTransforms_single_component {α : Type} [Zero α] [One α]
    (s : Stitching α) (p : Pipeline α)
    (hN : 1 ≤ p.images_.length) (h1 : s.good_indices.length = 1) :
    ∃ ts : List (Mat α),
      estimateTransforms s p = some (true, ⟨p.images_, p.grids_, ts⟩)
      ∧ ts.length = p.images_.length
      ∧ (∀ k (hk : k < p.images_.length), (p.images_[k]).empty = false →
          (∀ j (hj : j < k), (p.images_[j]).empty = true) →
          ts[k]? = some (Mat.eye 3 3 Depth.CV_64F)
          ∧ ∀ i, i < p.images_.length → i ≠ k → ts[i]? = some Mat.new)
      ∧ ((∀ img ∈ p.images_, img.empty = true) →
          ∀ i, i < p.images_.length → ts[i]? = some Mat.new)
      ∧ (∀ (s2 : Stitching α) (p2 : Pipeline α), p2.images_ = p.images_ →
          s2.good_indices.length = 1 →
          estimateTransforms s2 p2 = some (true, ⟨p2.images_, p2.grids_, ts⟩)) := by
  have hne : p.images_.isEmpty = false := by
    cases hi : p.images_ with
    | nil => simp [hi] at hN
    | cons a l => rfl
  refine ⟨setReference p.images_ 0 (List.replicate p.images_.length Mat.new), ?_, ?_, ?_, ?_, ?_⟩
  · exact estimateTransforms_degenerate s p hne h1
  · simp [setReference_length]
  · intro k hk hne hf
    rw [setReference_of_first _ _ _ k hk hne hf]
    constructor
    · simp [hk]
    · intro i hi hik
      have : k ≠ i := fun h => hik h.symm
      simp [List.getElem?_set, this, hi]
  · intro hall i hi
    rw [setReference_of_all_empty _ _ _ hall]
    simp [hi]
  · intro s2 p2 hp hs
    have hne2 : p2.images_.isEmpty = false := by rw [hp]; exact hne
    rw [estimateTransforms_degenerate s2 p2 hne2 hs, hp]

theorem scatter_length {α : Type} [Zero α] (js : List Int) (i : Nat) (ts out res : List (Mat α))
    (h : scatter js i ts out = some res) : res.length = out.length := by
  induction js generalizing i out with
  | nil =>
    simp only [scatter, Option.some.injEq] at h
    rw [← h]
  | cons j js ih =>
    unfold scatter at h
    split at h
    · exact absurd h (by simp)
    · split at h
      · have := ih _ _ h
        simpa using this
      · exact absurd h (by simp)

theorem scatter_spec {α : Type} [Zero α] (js : List Int) (i : Nat) (ts out : List (Mat α))
    (hlen : i + js.length ≤ ts.length)
    (hrange : ∀ j ∈ js, 0 ≤ j ∧ j < out.length)
    (hnodup : js.Nodup) :
    ∃ res, scatter js i ts out = some res
      ∧ (∀ m (hm : m < js.length),
          ∃ r, ts[i + m]? = some r ∧ res[(js[m]).toNat]? = some r.convertTo64F)
      ∧ (∀ idx : Nat, (idx : Int) ∉ js → res[idx]? = out[idx]?) := by
  induction js generalizing i out with
  | nil =>
    refine ⟨out, rfl, ?_, ?_⟩
    · intro m hm; simp at hm
    · intro idx _; rfl
  | cons j js ih =>
    have hi : i < ts.length := by simp at hlen; omega
    have hj := hrange j (List.mem_cons_self _ _)
    have hjn : j.toNat < out.length := by omega
    have hjnot : j ∉ js := (List.nodup_cons.mp hnodup).1
    have hnd : js.Nodup := (List.nodup_cons.mp hnodup).2
    obtain ⟨res, hres, hin, hout⟩ := ih (i + 1) (out.set j.toNat (ts[i]).convertTo64F)
      (by simp at hlen ⊢; omega)
      (by
        intro j2 hj2
        have := hrange j2 (List.mem_cons_of_mem _ hj2)
        simpa using this)
      hnd
    refine ⟨res, ?_, ?_, ?_⟩
    · unfold scatter
      rw [List.getElem?_eq_getElem hi]
      simp only []
      rw [if_pos ⟨hj.1, hjn⟩]
      exact hres
    · intro m hm
      cases m with
      | zero =>
        refine ⟨ts[i], by simp [List.getElem?_eq_getElem hi], ?_⟩
        have hcast : ((j.toNat : Nat) : Int) ∉ js := by
          rw [Int.toNat_of_nonneg hj.1]; exact hjnot
        have := hout j.toNat hcast
        simp only [List.getElem_cons_zero]
        rw [this]
        simp [hjn]
      | succ m =>
        have hm2 : m < js.length := by simpa using hm
        obtain ⟨r, hr1, hr2⟩ := hin m hm2
        refine ⟨r, ?_, ?_⟩
        · rw [← hr1]; congr 1; omega
        · simpa using hr2
    · intro idx hidx
      have h1 : (idx : Int) ∉ js := fun h => hidx (List.mem_cons_of_mem _ h)
      have h2 : (idx : Int) ≠ j := fun h => hidx (by rw [h]; exact List.mem_cons_self _ _)
      rw [hout idx h1]
      have h3 : j.toNat ≠ idx := by
        intro h
        apply h2
        rw [← h, Int.toNat_of_nonneg hj.1]
      simp [List.getElem?_set, h3]

/-- C10. On the path through estimation and refinement (at least one image, a
number of good indices other than one, estimator and adjuster successful), with
distinct in-range good indices and one refined matrix per good index,
`estimateTransforms` returns true; slot `good_indices[m]` holds the `m`-th
refined matrix converted to double precision, every slot outside the good
indices is the empty matrix, and the stored list is the same whatever was
stored before the call. -/
theorem estimateTransforms_scatters_refined {α : Type} [Zero α] [One α]
    (s : Stitching α) (p : Pipeline α)
    (hN : p.images_ ≠ []) (hk : s.good_indices.length ≠ 1)
    (hest : s.estimator_ok = true) (hadj : s.adjuster_ok = true)
    (hlen : s.transforms.length = s.good_indices.length)
    (hrange : ∀ j ∈ s.good_indices, 0 ≤ j ∧ j < p.images_.length)
    (hnodup : s.good_indices.Nodup) :
    ∃ ts : List (Mat α),
      estimateTransforms s p = some (true, ⟨p.images_, p.grids_, ts⟩)
      ∧ ts.length = p.images_.length
      ∧ (∀ m (hm : m < s.good_indices.length),
          ∃ r, s.transforms[m]? = some r
            ∧ ts[(s.good_indices[m]).toNat]? = some r.convertTo64F)
      ∧ (∀ i : Nat, i < p.images_.length → (i : Int) ∉ s.good_indices →
          ts[i]? = some Mat.new)
      ∧ (∀ stale : List (Mat α),
          estimateTransforms s ⟨p.images_, p.grids_, stale⟩
            = some (true, ⟨p.images_, p.grids_, ts⟩)) := by
  obtain ⟨res, hres, hin, hout⟩ := scatter_spec s.good_indices 0 s.transforms
    (List.replicate p.images_.length Mat.new) (by omega) (by simpa using hrange) hnodup
  have hne : ¬ (p.images_.isEmpty = true) := by
    cases hi : p.images_ with
    | nil => exact absurd hi hN
    | cons a l => simp
  have key : ∀ stale : List (Mat α), estimateTransforms s ⟨p.images_, p.grids_, stale⟩
      = some (true, ⟨p.images_, p.grids_, res⟩) := by
    intro stale
    unfold estimateTransforms
    rw [if_neg hne, if_neg hk, if_neg (by simp [hest]), if_neg (by simp [hadj])]
    simp only [hres]
  refine ⟨res, key p.transforms_, ?_, ?_, ?_, key⟩
  · have := scatter_length _ _ _ _ _ hres
    simpa using this
  · intro m hm
    obtain ⟨r, hr1, hr2⟩ := hin m hm
    exact ⟨r, by simpa using hr1, hr2⟩
  · intro i hi hnot
    rw [hout i hnot]
    simp [hi]

theorem estimateTransforms_empty {α : Type} [Zero α] [One α]
    (s : Stitching α) (p : Pipeline α) (h0 : p.images_.length = 0) :
    estimateTransforms s p = some (true, p) := by
  have : p.images_ = [] := List.length_eq_zero.mp h0
  unfold estimateTransforms
  rw [if_pos (by simp [this])]

/-- C9, amended. With at least one image, a call of `estimateTransforms` that
returns true leaves the images as they were and stores exactly as many
transform slots as there are images; with no image the call returns true and
leaves the pipeline, its stored transforms included, as it was. -/
theorem estimateTransforms_slot_count {α : Type} [Zero α] [One α]
    (s : Stitching α) (p : Pipeline α) :
    (p.images_.length = 0 → estimateTransforms s p = some (true, p))
      ∧ ∀ q : Pipeline α, estimateTransforms s p = some (true, q) →
          q.images_ = p.images_
          ∧ (1 ≤ p.images_.length → q.transforms_.length = q.images_.length) := by
  refine ⟨estimateTransforms_empty s p, ?_⟩
  intro q h
  unfold estimateTransforms at h
  split at h
  · rename_i hemp
    simp only [Option.some.injEq, Prod.mk.injEq, true_and] at h
    subst h
    have : p.images_ = [] := by simpa using hemp
    simp [this]
  · split at h
    · simp only [Option.some.injEq, Prod.mk.injEq, true_and] at h
      subst h
      refine ⟨rfl, fun _ => ?_⟩
      simp [setReference_length]
    · split at h
      · simp at h
      · split at h
        · simp at h
        · split at h
          · simp at h
          · rename_i ts hts
            simp only [Option.some.injEq, Prod.mk.injEq, true_and] at h
            subst h
            refine ⟨rfl, fun _ => ?_⟩
            have := scatter_length _ _ _ _ _ hts
            simpa using this

/-- The theorem `estimateTransforms_single_component` at two images, the first
one empty, and the single good index 0. -/
theorem estimateTransforms_single_component_witness :
    1 ≤ exPipelineTwoImages.images_.length
      ∧ exStitchingSingle.good_indices.length = 1
      ∧ ∃ ts : List (Mat ℚ),
        estimateTransforms exStitchingSingle exPipelineTwoImages
          = some (true, ⟨exPipelineTwoImages.images_, exPipelineTwoImages.grids_, ts⟩)
        ∧ ts.length = exPipelineTwoImages.images_.length := by
  obtain ⟨ts, h1, h2, _⟩ := estimateTransforms_single_component exStitchingSingle
    exPipelineTwoImages (by decide) (by decide)
  exact ⟨by decide, by decide, ts, h1, h2⟩

/-- The theorem `estimateTransforms_scatters_refined` at two images and the
good indices 1, 0. -/
theorem estimateTransforms_scatters_refined_witness :
    exPipelineTwoImages.images_ ≠ []
      ∧ exStitchingPair.good_indices.length ≠ 1
      ∧ exStitchingPair.good_indices.Nodup
      ∧ ∃ ts : List (Mat ℚ),
        estimateTransforms exStitchingPair exPipelineTwoImages
          = some (true, ⟨exPipelineTwoImages.images_, exPipelineTwoImages.grids_, ts⟩)
        ∧ ts.length = exPipelineTwoImages.images_.length := by
  obtain ⟨ts, h1, h2, _⟩ := estimateTransforms_scatters_refined exStitchingPair
    exPipelineTwoImages (by simp [exPipelineTwoImages]) (by decide) rfl rfl rfl
    (by decide) (by decide)
  exact ⟨by simp [exPipelineTwoImages], by decide, by decide, ts, h1, h2⟩

/-- C9, refuted as stated. With no image and two transforms stored by an
earlier call, `estimateTransforms` returns true and the stored list still has
two slots. -/
theorem estimateTransforms_empty_keeps_stale :
    (estimateTransforms exStitchingPair exPipelineStale).map
        (fun r => (r.1, r.2.images_.length, r.2.transforms_.length))
      = some (true, 0, 2) := by
  rfl

/-- The theorem `estimateTransforms_slot_count` at two images and three stale
transforms. -/
theorem estimateTransforms_slot_count_witness :
    estimateTransforms exStitchingSingle exPipelineTwoImages
        = some (true, ⟨exPipelineTwoImages.images_, exPipelineTwoImages.grids_,
            [Mat.new, Mat.eye 3 3 Depth.CV_64F]⟩)
      ∧ ([Mat.new, Mat.eye 3 3 Depth.CV_64F] : List (Mat ℚ)).length
        = exPipelineTwoImages.images_.length :=
  ⟨rfl, ((estimateTransforms_slot_count exStitchingSingle exPipelineTwoImages).2
    ⟨exPipelineTwoImages.images_, exPipelineTwoImages.grids_,
      [Mat.new, Mat.eye 3 3 Depth.CV_64F]⟩ rfl).2 (by decide)⟩

/-! ## Properties of composeGrids -/

theorem maskStep_info {α : Type} [LinearOrderedField α] [FloorRing α]
    (tp : Nat → Option (Point α)) (i : Nat) (r g : OccupancyGrid α)
    (h : maskStep tp i r = some g) : g.info = r.info := by
  unfold maskStep at h
  simp only [] at h
  split at h
  · simp at h
  · split at h
    · split at h
      · simp only [Option.some.injEq] at h
        rw [← h]
      · simp at h
    · simp at h

theorem maskRobots_steps {α : Type} [LinearOrderedField α] [FloorRing α]
    (tp : Nat → Option (Point α)) (r g : OccupancyGrid α)
    (h : maskRobots tp r = some g) :
    ∃ g0 g1, maskStep tp 0 r = some g0 ∧ maskStep tp 1 g0 = some g1
      ∧ maskStep tp 2 g1 = some g := by
  unfold maskRobots at h
  simp only [List.foldlM, Option.bind_eq_bind, Option.pure_def] at h
  cases h0 : maskStep tp 0 r with
  | none => simp [h0] at h
  | some g0 =>
    simp only [h0, Option.some_bind] at h
    cases h1 : maskStep tp 1 g0 with
    | none => simp [h1] at h
    | some g1 =>
      simp only [h1, Option.some_bind] at h
      cases h2 : maskStep tp 2 g1 with
      | none => simp [h2] at h
      | some g2 =>
        simp only [h2, Option.some_bind, Option.some.injEq] at h
        exact ⟨g0, g1, rfl, h1, by rw [h2, h]⟩

theorem maskRobots_info {α : Type} [LinearOrderedField α] [FloorRing α]
    (tp : Nat → Option (Point α)) (r g : OccupancyGrid α)
    (h : maskRobots tp r = some g) : g.info = r.info := by
  obtain ⟨g0, g1, h0, h1, h2⟩ := maskRobots_steps tp r g h
  rw [maskStep_info tp 2 g1 g h2, maskStep_info tp 1 g0 g1 h1, maskStep_info tp 0 r g0 h0]

/-- The stages of a call of `composeGrids` that returns a grid. -/
theorem composeGrids_stages {α : Type} [LinearOrderedField α] [FloorRing α]
    (env : Collaborators α) (p : Pipeline α) (g : OccupancyGrid α)
    (h : composeGrids env p = some (some g)) :
    p.images_.length = p.transforms_.length ∧ p.images_.length = p.grids_.length
      ∧ warpAll env.warp p.images_ p.transforms_ ≠ []
      ∧ ∃ r1 r2,
        setResolution p.transforms_ p.grids_ (composed env p) = some r1
        ∧ setOrigin p.transforms_ p.grids_
            ((warpAll env.warp p.images_ p.transforms_).map Prod.snd) r1 = some r2
        ∧ maskRobots env.transformPose r2 = some g := by
  unfold composeGrids at h
  split at h
  · simp at h
  · rename_i hlen
    split at h
    · simp at h
    · simp only [] at h
      split at h
      · simp at h
      · rename_i hw
        split at h
        · simp at h
        · rename_i r1 h1
          split at h
          · simp at h
          · rename_i r2 h2
            split at h
            · simp at h
            · rename_i r3 h3
              simp only [Option.some.injEq] at h
              subst h
              refine ⟨by omega, by omega, ?_, r1, r2, h1, h2, h3⟩
              intro hnil
              exact hw (by simp [hnil])

theorem setOrigin_resolution {α : Type} [LinearOrderedField α]
    (ts : List (Mat α)) (gs : List (Option (OccupancyGrid α))) (rois : List Rect)
    (r g : OccupancyGrid α) (h : setOrigin ts gs rois r = some g) :
    g.info.resolution = r.info.resolution := by
  unfold setOrigin at h
  split at h
  · simp only [Option.some.injEq] at h
    rw [h]
  · split at h
    · split at h
      · simp only [Option.some.injEq] at h
        rw [← h]
      · simp at h
    · simp at h

/-- A call of `setOrigin` on a non-empty transform list that returns needs the
first grid. -/
theorem setOrigin_first_grid {α : Type} [LinearOrderedField α]
    (ts : List (Mat α)) (gs : List (Option (OccupancyGrid α))) (rois : List Rect)
    (r g : OccupancyGrid α) (hts : ts ≠ []) (h : setOrigin ts gs rois r = some g) :
    ∃ g0, gs[0]? = some (some g0) := by
  unfold setOrigin at h
  split at h
  · rename_i hemp
    exact absurd (by simpa using hemp) hts
  · split at h
    · rename_i t0 r0 g0 _ _ hg
      exact ⟨g0, hg⟩
    · simp at h

theorem scanResolution_identity {α : Type} [Zero α] [One α] [DecidableEq α]
    (ts : List (Mat α)) (gs : List (Option (OccupancyGrid α))) (res any : α)
    (i : Nat) (gi : OccupancyGrid α) (hi : i < ts.length)
    (hid : isIdentity ts[i] = true)
    (hmin : ∀ j (hj : j < i), isIdentity (ts[j]) = false)
    (hg : gs[i]? = some (some gi)) :
    ∃ any2, scanResolution ts gs res any = some (gi.info.resolution, any2) := by
  induction ts generalizing gs any i with
  | nil => simp at hi
  | cons t ts ih =>
    cases gs with
    | nil => simp at hg
    | cons g0 gs =>
      cases i with
      | zero =>
        have h0 : isIdentity t = true := by simpa using hid
        have hg0 : g0 = some gi := by simpa using hg
        exact ⟨any, by simp [scanResolution, h0, hg0]⟩
      | succ i =>
        have h0 : isIdentity t = false := by simpa using hmin 0 (Nat.succ_pos i)
        have hi2 : i < ts.length := by simpa using hi
        have hid2 : isIdentity ts[i] = true := by simpa using hid
        have hmin2 : ∀ j (hj : j < i), isIdentity (ts[j]) = false := by
          intro j hj
          have := hmin (j + 1) (Nat.succ_lt_succ hj)
          simpa using this
        have hg2 : gs[i]? = some (some gi) := by simpa using hg
        cases g0 with
        | none =>
          obtain ⟨a2, ha2⟩ := ih gs any i hi2 hid2 hmin2 hg2
          exact ⟨a2, by simp [scanResolution, h0, ha2]⟩
        | some grid =>
          obtain ⟨a2, ha2⟩ := ih gs grid.info.resolution i hi2 hid2 hmin2 hg2
          exact ⟨a2, by simp [scanResolution, h0, ha2]⟩

/-- C2. In a call of `composeGrids` that returns a grid, if `i` is the smallest
index whose transform `isIdentity` accepts and `grids_[i]` has a positive
resolution, the returned grid has exactly that resolution, whatever the other
grids, the compositor and the robot poses are. -/
theorem composeGrids_identity_resolution {α : Type} [LinearOrderedField α] [FloorRing α]
    (env : Collaborators α) (p : Pipeline α) (g gi : OccupancyGrid α) (i : Nat)
    (hret : composeGrids env p = some (some g))
    (hi : i < p.transforms_.length)
    (hid : isIdentity (p.transforms_[i]) = true)
    (hmin : ∀ j (hj : j < i), isIdentity (p.transforms_[j]) = false)
    (hg : p.grids_[i]? = some (some gi))
    (hpos : 0 < gi.info.resolution) :
    g.info.resolution = gi.info.resolution := by
  obtain ⟨_, _, _, r1, r2, h1, h2, h3⟩ := composeGrids_stages env p g hret
  rw [maskRobots_info _ _ _ h3, setOrigin_resolution _ _ _ _ _ h2]
  obtain ⟨any2, hscan⟩ := scanResolution_identity p.transforms_ p.grids_
    (composed env p).info.resolution 0 i gi hi hid hmin hg
  unfold setResolution at h1
  rw [hscan] at h1
  simp only [Option.some.injEq] at h1
  rw [← h1]
  simp [not_le.mpr hpos]

/-- A defined call that returns a grid, from the evaluation of its test. -/
theorem exists_grid_of_isSome {β : Type} (o : Option (Option β))
    (h : (o.bind id).isSome = true) : ∃ g, o = some (some g) := by
  cases o with
  | none => simp at h
  | some inner =>
    cases inner with
    | none => simp at h
    | some g => exact ⟨g, rfl⟩

/-- The theorem `composeGrids_identity_resolution` at transforms
`[identity, T1]` and resolutions `[1/20, 1/10]`: the output resolution is
1/20. -/
theorem composeGrids_identity_resolution_witness :
    isIdentity (exPipelineIdentity.transforms_[0]) = true
      ∧ (composeGrids (exEnv 4 4 (fun _ => none)) exPipelineIdentity).map
          (Option.map (fun g => g.info.resolution)) = some (some (1 / 20)) := by
  obtain ⟨g, hg⟩ := exists_grid_of_isSome
    (composeGrids (exEnv 4 4 (fun _ => none)) exPipelineIdentity) (by decide!)
  have hres := composeGrids_identity_resolution (exEnv 4 4 (fun _ => none))
    exPipelineIdentity g (exGrid (1 / 20) 2 2) 0 hg (by decide) (by decide!)
    (fun j hj => absurd hj (Nat.not_lt_zero j)) rfl (by norm_num [exGrid])
  refine ⟨by decide!, ?_⟩
  rw [hg]
  simp only [Option.map_some', hres, exGrid]

theorem scanResolution_no_identity {α : Type} [Zero α] [One α] [DecidableEq α]
    (ts : List (Mat α)) (gs : List (Option (OccupancyGrid α))) (res any : α)
    (hno : ∀ t ∈ ts, isIdentity t = false) (hlen : gs.length = ts.length) :
    ∃ any2, scanResolution ts gs res any = some (res, any2)
      ∧ (((∀ j, j < gs.length → gs[j]? = some none) ∧ any2 = any)
        ∨ ∃ k gk, gs[k]? = some (some gk)
            ∧ (∀ j, k < j → j < gs.length → gs[j]? = some none)
            ∧ any2 = gk.info.resolution) := by
  induction ts generalizing gs any with
  | nil =>
    have : gs = [] := by simpa using hlen
    subst this
    exact ⟨any, rfl, Or.inl ⟨by simp, rfl⟩⟩
  | cons t ts ih =>
    cases gs with
    | nil => simp at hlen
    | cons g0 gs =>
      have h0 : isIdentity t = false := hno t (List.mem_cons_self _ _)
      have hno2 : ∀ t2 ∈ ts, isIdentity t2 = false :=
        fun t2 h2 => hno t2 (List.mem_cons_of_mem _ h2)
      have hlen2 : gs.length = ts.length := by simpa using hlen
      cases g0 with
      | none =>
        obtain ⟨a2, ha2, hcase⟩ := ih gs any hno2 hlen2
        refine ⟨a2, by simp [scanResolution, h0, ha2], ?_⟩
        rcases hcase with ⟨hall, heq⟩ | ⟨k, gk, hk, hlast, heq⟩
        · left
          refine ⟨?_, heq⟩
          intro j hj
          cases j with
          | zero => simp
          | succ j => simpa using hall j (by simpa using hj)
        · right
          refine ⟨k + 1, gk, by simpa using hk, ?_, heq⟩
          intro j hkj hj
          cases j with
          | zero => omega
          | succ j => simpa using hlast j (by omega) (by simpa using hj)
      | some grid =>
        obtain ⟨a2, ha2, hcase⟩ := ih gs grid.info.resolution hno2 hlen2
        refine ⟨a2, by simp [scanResolution, h0, ha2], ?_⟩
        right
        rcases hcase with ⟨hall, heq⟩ | ⟨k, gk, hk, hlast, heq⟩
        · refine ⟨0, grid, by simp, ?_, heq⟩
          intro j hkj hj
          cases j with
          | zero => omega
          | succ j => simpa using hall j (by simpa using hj)
        · refine ⟨k + 1, gk, by simpa using hk, ?_, heq⟩
          intro j hkj hj
          cases j with
          | zero => omega
          | succ j => simpa using hlast j (by omega) (by simpa using hj)

/-- C3, refuted as stated. Transforms `[T0, unknown]`, neither the identity,
with grids of resolutions `[1/20, 1/10]` and a compositor output of resolution
0: the last grid whose transform is known is grid 0, of resolution 1/20, and
the returned grid has the resolution 1/10 of grid 1, whose transform is
unknown. -/
theorem composeGrids_unknown_transform_resolution :
    (∀ t ∈ exPipelineLastGrid.transforms_, isIdentity t = false)
      ∧ exPipelineLastGrid.transforms_.map Mat.empty = [false, true]
      ∧ exPipelineLastGrid.grids_.map (Option.map (fun g => g.info.resolution))
          = [some (1 / 20), some (1 / 10)]
      ∧ (composed (exEnv 4 4 (fun _ => none)) exPipelineLastGrid).info.resolution = 0
      ∧ (composeGrids (exEnv 4 4 (fun _ => none)) exPipelineLastGrid).map
          (Option.map (fun g => g.info.resolution)) = some (some (1 / 10))
      ∧ (1 / 10 : ℚ) ≠ 1 / 20 := by
  refine ⟨by decide!, by decide!, by decide!, by decide!, by decide!, by decide!⟩

/-- C3, amended. In a call of `composeGrids` that returns a grid, with no
transform accepted by `isIdentity` and a compositor output whose resolution is
not positive, the returned resolution is the resolution of the last grid, in
index order, that is present (non-null), whether its transform is known or
not. -/
theorem composeGrids_fallback_resolution {α : Type} [LinearOrderedField α] [FloorRing α]
    (env : Collaborators α) (p : Pipeline α) (g : OccupancyGrid α)
    (hret : composeGrids env p = some (some g))
    (hnoid : ∀ t ∈ p.transforms_, isIdentity t = false)
    (hres : (composed env p).info.resolution ≤ 0) :
    ∃ k gk, p.grids_[k]? = some (some gk)
      ∧ (∀ j, k < j → j < p.grids_.length → p.grids_[j]? = some none)
      ∧ g.info.resolution = gk.info.resolution := by
  obtain ⟨hl1, hl2, hw, r1, r2, h1, h2, h3⟩ := composeGrids_stages env p g hret
  have hts : p.transforms_ ≠ [] := by
    intro hnil
    apply hw
    cases himg : p.images_ with
    | nil => simp [warpAll]
    | cons a l => simp [himg, hnil] at hl1
  obtain ⟨g0, hg0⟩ := setOrigin_first_grid _ _ _ _ _ hts h2
  obtain ⟨any2, hscan, hcase⟩ := scanResolution_no_identity p.transforms_ p.grids_
    (composed env p).info.resolution 0 hnoid (by omega)
  have hr : g.info.resolution = any2 := by
    rw [maskRobots_info _ _ _ h3, setOrigin_resolution _ _ _ _ _ h2]
    unfold setResolution at h1
    rw [hscan] at h1
    simp only [Option.some.injEq] at h1
    rw [← h1]
    simp [hres]
  rcases hcase with ⟨hall, _⟩ | ⟨k, gk, hk, hlast, heq⟩
  · have hpos : 0 < p.grids_.length := by
      cases hgs : p.grids_ with
      | nil => simp [hgs] at hg0
      | cons a l => simp
    have := hall 0 hpos
    rw [hg0] at this
    simp at this
  · exact ⟨k, gk, hk, hlast, by rw [hr, heq]⟩

/-- The theorem `composeGrids_fallback_resolution` at transforms
`[T0, unknown]` and resolutions `[1/20, 1/10]`. -/
theorem composeGrids_fallback_resolution_witness :
    (∀ t ∈ exPipelineLastGrid.transforms_, isIdentity t = false)
      ∧ (composed (exEnv 4 4 (fun _ => none)) exPipelineLastGrid).info.resolution ≤ 0
      ∧ ∃ (g : OccupancyGrid ℚ) (k : Nat) (gk : OccupancyGrid ℚ),
        composeGrids (exEnv 4 4 (fun _ => none)) exPipelineLastGrid = some (some g)
        ∧ exPipelineLastGrid.grids_[k]? = some (some gk)
        ∧ g.info.resolution = gk.info.resolution := by
  obtain ⟨g, hg⟩ := exists_grid_of_isSome
    (composeGrids (exEnv 4 4 (fun _ => none)) exPipelineLastGrid) (by decide!)
  obtain ⟨k, gk, hk, _, hr⟩ := composeGrids_fallback_resolution
    (exEnv 4 4 (fun _ => none)) exPipelineLastGrid g hg (by decide!) (by decide!)
  exact ⟨by decide!, by decide!, g, k, gk, hg, hk, hr⟩

theorem warpAll_first {α : Type} (warp : Mat α → Mat α → Mat α × Rect)
    (img0 t0 : Mat α) (imgs ts : List (Mat α))
    (hne : img0.empty = false) (hk : t0.empty = false) :
    warpAll warp (img0 :: imgs) (t0 :: ts) = warp img0 t0 :: warpAll warp imgs ts := by
  simp [warpAll, hne, hk]

/-- When index 0 has a known transform and a non-empty image, a call of
`composeGrids` that returns a grid reads `T0[0][2]`, `T0[1][2]` and
the rectangle of the warped image 0, and the origin of the returned grid is
`((-T0[0][2] - rect0.x) * grids_[0].resolution,
(-T0[1][2] - rect0.y) * grids_[0].resolution)`. -/
theorem composeGrids_origin_of_first {α : Type} [LinearOrderedField α] [FloorRing α]
    (env : Collaborators α) (p : Pipeline α) (g : OccupancyGrid α)
    (img0 t0 : Mat α) (imgs ts : List (Mat α))
    (hret : composeGrids env p = some (some g))
    (himg : p.images_ = img0 :: imgs) (ht : p.transforms_ = t0 :: ts)
    (hne : img0.empty = false) (hk : t0.empty = false) :
    ∃ tx ty g0, t0.atDouble 0 2 = some tx ∧ t0.atDouble 1 2 = some ty
      ∧ p.grids_[0]? = some (some g0)
      ∧ g.info.origin.position.x
          = (-tx - (((env.warp img0 t0).2.x : Int) : α)) * g0.info.resolution
      ∧ g.info.origin.position.y
          = (-ty - (((env.warp img0 t0).2.y : Int) : α)) * g0.info.resolution := by
  obtain ⟨_, _, _, r1, r2, _, h2, h3⟩ := composeGrids_stages env p g hret
  rw [maskRobots_info _ _ _ h3]
  rw [himg, ht, warpAll_first _ _ _ _ _ hne hk] at h2
  unfold setOrigin at h2
  rw [if_neg (by simp)] at h2
  simp only [List.map_cons, List.getElem?_cons_zero] at h2
  split at h2
  · rename_i t0b r0 g0 ht0 hr0 hg0
    simp only [Option.some.injEq] at ht0 hr0
    subst ht0
    subst hr0
    split at h2
    · rename_i tx ty htx hty
      simp only [Option.some.injEq] at h2
      subst h2
      exact ⟨tx, ty, g0, htx, hty, hg0, rfl, rfl⟩
    · simp at h2
  · simp at h2

/-- C4, second half, evaluated. Image 0 is empty, so index 0 is not warped and
the only rectangle, with corner `(4, 5)`, is that of index 1; transform 0 is
known with translation `(5, 7)` and grid 0 has resolution 1/20. The compositor
returns the origin `(0, 0)`; `composeGrids` returns the origin
`((-5 - 4) / 20, (-7 - 5) / 20)`. With transform 0 unknown and index 1
warpable, the origin step reads an element of the empty matrix and the call
has no defined result. -/
theorem composeGrids_origin_from_other_rectangle :
    exPipelineOrigin.images_.map Mat.empty = [true, false]
      ∧ exPipelineOrigin.transforms_.map Mat.empty = [false, false]
      ∧ (warpAll (exEnv 4 4 (fun _ => none)).warp exPipelineOrigin.images_
          exPipelineOrigin.transforms_).map Prod.snd = [⟨4, 5, 2, 2⟩]
      ∧ ((composed (exEnv 4 4 (fun _ => none)) exPipelineOrigin).info.origin.position.x,
          (composed (exEnv 4 4 (fun _ => none)) exPipelineOrigin).info.origin.position.y)
          = (0, 0)
      ∧ (composeGrids (exEnv 4 4 (fun _ => none)) exPipelineOrigin).map
          (Option.map (fun g => (g.info.origin.position.x, g.info.origin.position.y)))
          = some (some (-9 / 20, -3 / 5))
      ∧ exPipelineFirstUnknown.transforms_.map Mat.empty = [true, false]
      ∧ (warpAll (exEnv 4 4 (fun _ => none)).warp exPipelineFirstUnknown.images_
          exPipelineFirstUnknown.transforms_).length = 1
      ∧ (composeGrids (exEnv 4 4 (fun _ => none)) exPipelineFirstUnknown).isNone = true := by
  refine ⟨by decide!, by decide!, by decide!, by decide!, by decide!, by decide!,
    by decide!, by decide!⟩

/-- A lookup that throws leaves the default pose: the step for that robot is
the step at the world position `(0, 0)`. -/
theorem maskStep_failed_lookup {α : Type} [LinearOrderedField α] [FloorRing α]
    (tp : Nat → Option (Point α)) (i : Nat) (r : OccupancyGrid α) (h : tp i = none) :
    maskStep tp i r = maskStep (fun _ => some ⟨0, 0⟩) i r := by
  unfold maskStep
  simp only [h]

/-- C8, evaluated. The pose lookup fails for all three robots; the compositor
returned 16 cells of value 100, and the grid `composeGrids` returns has the
nine cells around the pixel of world position `(0, 0)` cleared. -/
theorem composeGrids_failed_lookup_masks :
    (composed (exEnv 4 4 (fun _ => none)) exPipelineLastGrid).data = List.replicate 16 100
      ∧ (composeGrids (exEnv 4 4 (fun _ => none)) exPipelineLastGrid).map
          (Option.map (fun g => g.data))
          = some (some [100, 100, 100, 100, 100, 0, 0, 0, 100, 0, 0, 0, 100, 0, 0, 0]) := by
  refine ⟨by decide!, by decide!⟩

/-- C6, evaluated. On a 10 x 10 grid of cells 100: around pixel `(5, 5)` the
cells at `dx = 3` (index `5 * 10 + 8`) and at `dy = 3` (index `8 * 10 + 5`)
keep the value 100 while the centre is cleared; around pixel `(1, 1)` the
cells of row 0 and of column 0 (indices 1, 10 and 0) keep the value 100 while
the centre is cleared. -/
theorem maskRobot_leaves_cells :
    (maskRobot 10 10 5 5 (List.replicate 100 100)).map
        (fun d => (d[5 * 10 + 8]?, d[8 * 10 + 5]?, d[5 * 10 + 5]?))
        = some (some 100, some 100, some 0)
      ∧ (maskRobot 10 10 1 1 (List.replicate 100 100)).map
        (fun d => (d[0 * 10 + 1]?, d[1 * 10 + 0]?, d[0]?, d[1 * 10 + 1]?))
        = some (some 100, some 100, some 100, some 0) := by
  refine ⟨by decide!, by decide!⟩

/-! ## Bounds of the masking loop -/

theorem wrapInt32_range (v : Int) : -2 ^ 31 ≤ wrapInt32 v ∧ wrapInt32 v < 2 ^ 31 := by
  unfold wrapInt32
  norm_num
  omega

theorem wrapInt32_of_representable (v : Int) (h1 : -2 ^ 31 ≤ v) (h2 : v < 2 ^ 31) :
    wrapInt32 v = v := by
  unfold wrapInt32
  norm_num at h1 h2 ⊢
  omega

theorem toUInt32_of_pos (r : Int) (h0 : 0 < r) (h1 : r < 2 ^ 31) :
    toUInt32 r = r.toNat := by
  unfold toUInt32
  norm_num at h1 ⊢
  omega

/-- What the guard of lines 253-254 gives for the row and column it tests. -/
theorem maskGuard_bounds (width height : Nat) (px py x y : Int)
    (h : maskGuard width height px py x y = true) :
    0 < wrapInt32 (py + y) ∧ (wrapInt32 (py + y)).toNat < height
      ∧ 0 < wrapInt32 (px + x) ∧ (wrapInt32 (px + x)).toNat < width
      ∧ maskIndex width px py x y
          = ((wrapInt32 (py + y)).toNat * width + (wrapInt32 (px + x)).toNat) % 2 ^ 32 := by
  unfold maskGuard at h
  simp only [Bool.and_eq_true, decide_eq_true_eq] at h
  obtain ⟨⟨⟨hr, hc⟩, hr0⟩, hc0⟩ := h
  have hrr := (wrapInt32_range (py + y)).2
  have hcr := (wrapInt32_range (px + x)).2
  rw [toUInt32_of_pos _ hr0 hrr] at hr
  rw [toUInt32_of_pos _ hc0 hcr] at hc
  refine ⟨hr0, hr, hc0, hc, ?_⟩
  unfold maskIndex
  rw [toUInt32_of_pos _ hr0 hrr, toUInt32_of_pos _ hc0 hcr]

theorem flat_index_lt (r c width height : Nat) (hr : r < height) (hc : c < width) :
    r * width + c < width * height := by
  have h1 : (r + 1) * width ≤ height * width := Nat.mul_le_mul_right width hr
  have h2 : r * width + c < (r + 1) * width := by
    rw [Nat.add_mul, Nat.one_mul]
    omega
  calc r * width + c < (r + 1) * width := h2
    _ ≤ height * width := h1
    _ = width * height := Nat.mul_comm _ _

theorem maskIndex_lt (width height : Nat) (px py x y : Int)
    (h : maskGuard width height px py x y = true) :
    maskIndex width px py x y < width * height := by
  obtain ⟨_, hr, _, hc, hidx⟩ := maskGuard_bounds width height px py x y h
  rw [hidx]
  exact lt_of_le_of_lt (Nat.mod_le _ _) (flat_index_lt _ _ _ _ hr hc)

theorem maskCell_defined (width height : Nat) (px py x y : Int) (data : List Int)
    (hdata : data.length = width * height) :
    ∃ d, maskCell width height px py x y data = some d ∧ d.length = width * height := by
  unfold maskCell
  by_cases hg : maskGuard width height px py x y = true
  · have hlt : maskIndex width px py x y < data.length := by
      rw [hdata]; exact maskIndex_lt width height px py x y hg
    rw [if_pos hg, if_pos hlt]
    exact ⟨_, rfl, by simp [hdata]⟩
  · rw [if_neg hg]
    exact ⟨data, rfl, hdata⟩

theorem foldlM_defined {β γ : Type} (P : β → Prop) (f : β → γ → Option β)
    (hf : ∀ b c, P b → ∃ b2, f b c = some b2 ∧ P b2) (l : List γ) (b : β) (hb : P b) :
    ∃ b2, l.foldlM f b = some b2 ∧ P b2 := by
  induction l generalizing b with
  | nil => exact ⟨b, rfl, hb⟩
  | cons c l ih =>
    obtain ⟨b1, h1, hp1⟩ := hf b c hb
    obtain ⟨b2, h2, hp2⟩ := ih b1 hp1
    refine ⟨b2, ?_, hp2⟩
    simp only [List.foldlM, h1, Option.bind_eq_bind, Option.some_bind]
    exact h2

theorem maskRobot_defined (width height : Nat) (px py : Int) (data : List Int)
    (hdata : data.length = width * height) :
    ∃ d, maskRobot width height px py data = some d ∧ d.length = width * height := by
  unfold maskRobot
  apply foldlM_defined (fun d : List Int => d.length = width * height)
  · intro d x hd
    apply foldlM_defined (fun d : List Int => d.length = width * height)
    · intro d2 y hd2
      exact maskCell_defined width height px py x y d2 hd2
    · exact hd
  · exact hdata

/-- C7. On a grid whose data has `width * height` cells, for every pixel
position `(px, py)` and every iteration `(x, y)` of the masking loop that
passes the guard (the only iterations that write): the row `py + y` and the
column `px + x`, as the `int` values the code computes, satisfy
`0 ≤ row < height` and `0 ≤ column < width`, the flat index
`row * width + column` is below `width * height`, and the index the code
computes in `uint32_t` is below the data length. The `int` value is the exact
sum whenever the sum is representable, and the loop runs to its end without an
out-of-range write. -/
theorem maskRobot_writes_in_bounds (width height : Nat) (px py : Int) (data : List Int)
    (hdata : data.length = width * height) :
    (∀ x ∈ window, ∀ y ∈ window, maskGuard width height px py x y = true →
        0 ≤ wrapInt32 (py + y) ∧ wrapInt32 (py + y) < height
        ∧ 0 ≤ wrapInt32 (px + x) ∧ wrapInt32 (px + x) < width
        ∧ wrapInt32 (py + y) * width + wrapInt32 (px + x) < width * height
        ∧ maskIndex width px py x y < data.length)
      ∧ (∀ x ∈ window, ∀ y ∈ window,
          (-2 ^ 31 ≤ py + y → py + y < 2 ^ 31 → wrapInt32 (py + y) = py + y)
          ∧ (-2 ^ 31 ≤ px + x → px + x < 2 ^ 31 → wrapInt32 (px + x) = px + x))
      ∧ ∃ d, maskRobot width height px py data = some d ∧ d.length = data.length := by
  refine ⟨?_, ?_, ?_⟩
  · intro x _ y _ hg
    obtain ⟨hr0, hr, hc0, hc, _⟩ := maskGuard_bounds width height px py x y hg
    have hflat := flat_index_lt _ _ _ _ hr hc
    have hrz : ((wrapInt32 (py + y)).toNat : Int) = wrapInt32 (py + y) :=
      Int.toNat_of_nonneg (le_of_lt hr0)
    have hcz : ((wrapInt32 (px + x)).toNat : Int) = wrapInt32 (px + x) :=
      Int.toNat_of_nonneg (le_of_lt hc0)
    refine ⟨le_of_lt hr0, ?_, le_of_lt hc0, ?_, ?_, ?_⟩
    · rw [← hrz]; exact_mod_cast hr
    · rw [← hcz]; exact_mod_cast hc
    · rw [← hrz, ← hcz]; exact_mod_cast hflat
    · rw [hdata]; exact maskIndex_lt width height px py x y hg
  · intro x _ y _
    exact ⟨wrapInt32_of_representable _, wrapInt32_of_representable _⟩
  · obtain ⟨d, hd, hlen⟩ := maskRobot_defined width height px py data hdata
    exact ⟨d, hd, by rw [hlen, hdata]⟩

/-- The theorem `maskRobot_writes_in_bounds` on a 10 x 10 grid at the pixel
`(0, -2)` on and beyond the boundary. -/
theorem maskRobot_writes_in_bounds_witness :
    (List.replicate 100 (100 : Int)).length = 10 * 10
      ∧ ∃ d, maskRobot 10 10 0 (-2) (List.replicate 100 100) = some d
        ∧ d.length = (List.replicate 100 (100 : Int)).length :=
  ⟨by decide, (maskRobot_writes_in_bounds 10 10 0 (-2) (List.replicate 100 100)
    (by decide)).2.2⟩

/-! ## Properties of getTransforms -/

theorem copysign_sq {α : Type} [LinearOrderedField α] (x y : α) :
    copysign x y ^ 2 = x ^ 2 := by
  unfold copysign
  split <;> simp [sq_abs]

/-- The rotation that `toRosTransform` computes from rotation entries on the
unit circle. -/
theorem toRosTransform_rotation (t : Mat ℝ) (r : Transform ℝ)
    (hk : t.empty = false) (hr : toRosTransform Real.sqrt t = some r)
    (hab : t.elem 0 0 ^ 2 + t.elem 1 0 ^ 2 = 1) :
    r.rotation.x = 0 ∧ r.rotation.y = 0 ∧ 0 ≤ r.rotation.w
      ∧ r.rotation.w ^ 2 + r.rotation.z ^ 2 = 1
      ∧ r.rotation.w ^ 2 - r.rotation.z ^ 2 = t.elem 0 0
      ∧ 2 * r.rotation.w * r.rotation.z = t.elem 1 0
      ∧ (t.elem 1 0 = 0 → 0 ≤ r.rotation.z) := by
  unfold toRosTransform at hr
  rw [if_neg (by simp [hk])] at hr
  split at hr
  · simp at hr
  · split at hr
    · rename_i tx ty a b htx hty ha hb
      have ha2 : a = t.elem 0 0 := by
        unfold Mat.atDouble at ha
        split at ha
        · simpa using ha.symm
        · simp at ha
      have hb2 : b = t.elem 1 0 := by
        unfold Mat.atDouble at hb
        split at hb
        · simpa using hb.symm
        · simp at hb
      rw [← ha2, ← hb2] at hab ⊢
      simp only [Option.some.injEq] at hr
      subst hr
      simp only []
      have hle : a ≤ 1 := by nlinarith [sq_nonneg b, sq_nonneg (a - 1)]
      have hge : -1 ≤ a := by nlinarith [sq_nonneg b, sq_nonneg (a + 1)]
      have hp : (0 : ℝ) ≤ 2 + 2 * a := by linarith
      have hm : (0 : ℝ) ≤ 2 - 2 * a := by linarith
      have hsp : Real.sqrt (2 + 2 * a) ^ 2 = 2 + 2 * a := Real.sq_sqrt hp
      have hsm : Real.sqrt (2 - 2 * a) ^ 2 = 2 - 2 * a := Real.sq_sqrt hm
      have hpn : 0 ≤ Real.sqrt (2 + 2 * a) := Real.sqrt_nonneg _
      have hmn : 0 ≤ Real.sqrt (2 - 2 * a) := Real.sqrt_nonneg _
      have hprod : Real.sqrt (2 + 2 * a) * Real.sqrt (2 - 2 * a) = 2 * |b| := by
        rw [← Real.sqrt_mul hp]
        have : (2 + 2 * a) * (2 - 2 * a) = (2 * |b|) ^ 2 := by
          rw [mul_pow, sq_abs]; nlinarith
        rw [this, Real.sqrt_sq (by positivity)]
      have hz2 : copysign (Real.sqrt (2 - 2 * a) * (1 / 2)) b ^ 2 = (2 - 2 * a) / 4 := by
        rw [copysign_sq, mul_pow, hsm]; ring
      have hw2 : (Real.sqrt (2 + 2 * a) * (1 / 2)) ^ 2 = (2 + 2 * a) / 4 := by
        rw [mul_pow, hsp]; ring
      have habs : |Real.sqrt (2 - 2 * a) * (1 / 2)| = Real.sqrt (2 - 2 * a) * (1 / 2) :=
        abs_of_nonneg (by positivity)
      refine ⟨trivial, trivial, by positivity, ?_, ?_, ?_, ?_⟩
      · rw [hw2, hz2]; ring
      · rw [hw2, hz2]; ring
      · unfold copysign
        rw [habs]
        by_cases hneg : b < 0
        · rw [if_pos hneg]
          have : |b| = -b := abs_of_neg hneg
          nlinarith [hprod]
        · rw [if_neg hneg]
          have : |b| = b := abs_of_nonneg (not_lt.mp hneg)
          nlinarith [hprod]
      · intro hb0
        unfold copysign
        rw [if_neg (by rw [hb0]; exact lt_irrefl 0)]
        exact abs_nonneg _
    · simp at hr

theorem toRosTransform_defined {α : Type} [LinearOrderedField α] (sqrt : α → α) (t : Mat α)
    (hwf : t.empty = true ∨ (t.depth = Depth.CV_64F ∧ 2 ≤ t.rows ∧ 3 ≤ t.cols)) :
    ∃ r, toRosTransform sqrt t = some r := by
  unfold toRosTransform
  rcases hwf with he | ⟨hd, hrow, hcol⟩
  · rw [if_pos he]; exact ⟨_, rfl⟩
  · by_cases he : t.empty = true
    · rw [if_pos he]; exact ⟨_, rfl⟩
    · rw [if_neg he, if_neg (by simp [hd])]
      have h1 : t.atDouble 0 2 = some (t.elem 0 2) := by
        unfold Mat.atDouble; rw [if_pos ⟨hd, by omega, by omega⟩]
      have h2 : t.atDouble 1 2 = some (t.elem 1 2) := by
        unfold Mat.atDouble; rw [if_pos ⟨hd, by omega, by omega⟩]
      have h3 : t.atDouble 0 0 = some (t.elem 0 0) := by
        unfold Mat.atDouble; rw [if_pos ⟨hd, by omega, by omega⟩]
      have h4 : t.atDouble 1 0 = some (t.elem 1 0) := by
        unfold Mat.atDouble; rw [if_pos ⟨hd, by omega, by omega⟩]
      rw [h1, h2, h3, h4]
      exact ⟨_, rfl⟩

theorem getTransformsLoop_spec {α : Type} [LinearOrderedField α] (sqrt : α → α)
    (ts : List (Mat α))
    (hwf : ∀ t ∈ ts, t.empty = true ∨ (t.depth = Depth.CV_64F ∧ 2 ≤ t.rows ∧ 3 ≤ t.cols)) :
    ∃ rs, getTransformsLoop sqrt ts = some rs ∧ rs.length = ts.length
      ∧ ∀ i (hi : i < ts.length), ∃ r, rs[i]? = some r
          ∧ toRosTransform sqrt (ts[i]) = some r := by
  induction ts with
  | nil => exact ⟨[], rfl, rfl, fun i hi => absurd hi (Nat.not_lt_zero i)⟩
  | cons t ts ih =>
    obtain ⟨r, hr⟩ := toRosTransform_defined sqrt t (hwf t (List.mem_cons_self _ _))
    obtain ⟨rs, hrs, hlen, hall⟩ := ih (fun t2 h2 => hwf t2 (List.mem_cons_of_mem _ h2))
    refine ⟨r :: rs, ?_, by simp [hlen], ?_⟩
    · simp only [getTransformsLoop, hr, hrs]
    · intro i hi
      cases i with
      | zero => exact ⟨r, by simp, by simpa using hr⟩
      | succ i =>
        obtain ⟨r2, h1, h2⟩ := hall i (by simpa using hi)
        exact ⟨r2, by simpa using h1, by simpa using h2⟩

/-- C5. Over the reals, with `std::sqrt` the real square root: when every
stored transform is unknown or a `CV_64F` matrix with at least 2 rows and 3
columns, `getTransforms` returns one entry per transform, and for every known
transform whose rotation entries `a = R[0][0]`, `b = R[1][0]` satisfy
`a^2 + b^2 = 1` the returned rotation `(x, y, z, w)` has `x = y = 0`, `w ≥ 0`,
`w^2 + z^2 = 1`, `w^2 - z^2 = a`, `2 * w * z = b`, and `z ≥ 0` when `b = 0`. -/
theorem getTransforms_unit_quaternion (p : Pipeline ℝ)
    (hwf : ∀ t ∈ p.transforms_,
      t.empty = true ∨ (t.depth = Depth.CV_64F ∧ 2 ≤ t.rows ∧ 3 ≤ t.cols)) :
    ∃ rs, getTransforms Real.sqrt p = some rs ∧ rs.length = p.transforms_.length
      ∧ ∀ i (hi : i < p.transforms_.length), (p.transforms_[i]).empty = false →
          (p.transforms_[i]).elem 0 0 ^ 2 + (p.transforms_[i]).elem 1 0 ^ 2 = 1 →
          ∃ r, rs[i]? = some r
            ∧ r.rotation.x = 0 ∧ r.rotation.y = 0 ∧ 0 ≤ r.rotation.w
            ∧ r.rotation.w ^ 2 + r.rotation.z ^ 2 = 1
            ∧ r.rotation.w ^ 2 - r.rotation.z ^ 2 = (p.transforms_[i]).elem 0 0
            ∧ 2 * r.rotation.w * r.rotation.z = (p.transforms_[i]).elem 1 0
            ∧ ((p.transforms_[i]).elem 1 0 = 0 → 0 ≤ r.rotation.z) := by
  obtain ⟨rs, hrs, hlen, hall⟩ := getTransformsLoop_spec Real.sqrt p.transforms_ hwf
  refine ⟨rs, hrs, hlen, ?_⟩
  intro i hi hk hab
  obtain ⟨r, h1, h2⟩ := hall i hi
  exact ⟨r, h1, toRosTransform_rotation _ r hk h2 hab⟩

/-- The theorem `getTransforms_unit_quaternion` at an unknown transform
followed by a quarter turn (`a = 0`, `b = 1`): the second rotation returned is
a unit quaternion with `2 * w * z = 1`. -/
theorem getTransforms_unit_quaternion_witness :
    (∀ t ∈ exPipelineQuarterTurn.transforms_,
        t.empty = true ∨ (t.depth = Depth.CV_64F ∧ 2 ≤ t.rows ∧ 3 ≤ t.cols))
      ∧ ∃ rs r, getTransforms Real.sqrt exPipelineQuarterTurn = some rs
        ∧ rs[1]? = some r
        ∧ r.rotation.w ^ 2 + r.rotation.z ^ 2 = 1
        ∧ 2 * r.rotation.w * r.rotation.z = 1 := by
  have hwf : ∀ t ∈ exPipelineQuarterTurn.transforms_,
      t.empty = true ∨ (t.depth = Depth.CV_64F ∧ 2 ≤ t.rows ∧ 3 ≤ t.cols) := by
    simp [exPipelineQuarterTurn, Mat.new, Mat.empty]
  obtain ⟨rs, hrs, _, hall⟩ := getTransforms_unit_quaternion exPipelineQuarterTurn hwf
  obtain ⟨r, h1, _, _, _, h4, _, h6, _⟩ := hall 1 (by decide) rfl
    (by norm_num [exPipelineQuarterTurn])
  exact ⟨hwf, rs, r, hrs, h1, h4, by simpa [exPipelineQuarterTurn] using h6⟩

end combine_grids
